import Mathlib

/-!
Verification development for the FormatForge image conversion program
(single source file `app.py`).  Python strings are embedded as lists of
Unicode code points (`PyStr`); the Pillow library surface that the program
touches is embedded structurally: pixel buffers are lists of resolved RGBA
quadruples, and the external encoder is an oracle parameter that either
accepts a save call or raises with a message.
-/

/-- Python strings modelled as lists of Unicode code points. -/
abbrev PyStr := List Nat

/-- Turn a Lean string literal into the code-point list model. -/
def pstr (s : String) : PyStr := s.toList.map Char.toNat

/-- Python `str.strip` whitespace test, restricted to the ASCII whitespace
characters relevant here (space, tab, LF, VT, FF, CR). -/
def isPyWs (c : Nat) : Bool := decide (c = 32 ∨ c = 9 ∨ c = 10 ∨ c = 11 ∨ c = 12 ∨ c = 13)

/-- Lowering of one code point, the `str.lower` behaviour: exact on ASCII.
U+0131 (dotless i) is already lowercase and is left unchanged, as in Python.
Code points whose Python case mapping is not one code point to one code
point (such as U+0130, whose lowercase is two code points) are outside this
model. -/
def lowerChar (c : Nat) : Nat := if 65 ≤ c ∧ c ≤ 90 then c + 32 else c

/-- Uppering of one code point, the `str.upper` behaviour: exact on ASCII,
plus the Unicode mapping of U+0131 (dotless i, 305) to the ASCII letter I
(73), which Python applies and which matters for normalization.  Code
points whose Python case mapping is not one-to-one (such as the sharp s)
are outside this model. -/
def upperChar (c : Nat) : Nat :=
  if 97 ≤ c ∧ c ≤ 122 then c - 32 else if c = 305 then 73 else c

/-- Python `str.lower`. -/
def pyLower (s : PyStr) : PyStr := s.map lowerChar

/-- Python `str.upper`. -/
def pyUpper (s : PyStr) : PyStr := s.map upperChar

/-- Python `str.strip()`: drop whitespace from both ends. -/
def pyStrip (s : PyStr) : PyStr :=
  ((s.dropWhile isPyWs).reverse.dropWhile isPyWs).reverse

/-- Python `str.split(sep)` for a one-character separator: splits at every
occurrence, keeping empty pieces (so `"".split(",") = [""]`). -/
def pySplit (sep : Nat) : PyStr → List PyStr
  | [] => [[]]
  | c :: rest =>
    let r := pySplit sep rest
    if c = sep then [] :: r
    else
      match r with
      | [] => [[c]]
      | h :: t => (c :: h) :: t

/-- Python `os.path.basename` on POSIX: everything after the last slash. -/
def pyBasename (p : PyStr) : PyStr :=
  (p.reverse.takeWhile (fun c => !(c == 47))).reverse

/-- The extension component of `os.path.splitext`: the part of the basename
from its last dot onwards, except that the leading dots of the basename do
not count as extension separators (`splitext(".bashrc") = (".bashrc", "")`). -/
def pySplitextExt (p : PyStr) : PyStr :=
  let base := pyBasename p
  let rest := base.dropWhile (fun c => c == 46)
  if rest.contains 46 then
    46 :: (rest.reverse.takeWhile (fun c => !(c == 46))).reverse
  else []

/-- The root component of `os.path.splitext`: the input minus the extension. -/
def pySplitextRoot (p : PyStr) : PyStr :=
  p.take (p.length - (pySplitextExt p).length)

-- ------------------------
-- Format registry (`normalize_format_name`, `get_extension_for_format`)
-- ------------------------

/-- The alias dictionary lookup inside `normalize_format_name`
(`mapping.get(name, ...)` over the literal dict of the source). -/
def fmtLookup (n : PyStr) : Option PyStr :=
  if n = pstr "jpg" then some (pstr "JPEG")
  else if n = pstr "jpeg" then some (pstr "JPEG")
  else if n = pstr "png" then some (pstr "PNG")
  else if n = pstr "ico" then some (pstr "ICO")
  else if n = pstr "icon" then some (pstr "ICO")
  else if n = pstr "gif" then some (pstr "GIF")
  else if n = pstr "bmp" then some (pstr "BMP")
  else if n = pstr "webp" then some (pstr "WEBP")
  else if n = pstr "tiff" then some (pstr "TIFF")
  else if n = pstr "tif" then some (pstr "TIFF")
  else none

/-- Embedding of `normalize_format_name`: empty input returns the empty
string; otherwise strip and lower the name, look it up in the alias dict,
and default to the uppercased name on a miss. -/
def normalize_format_name (name : PyStr) : PyStr :=
  if name = [] then []
  else
    match fmtLookup (pyLower (pyStrip name)) with
    | some v => v
    | none => pyUpper (pyLower (pyStrip name))

/-- The enumerated format set of the specification. -/
def enumeratedFormats : List PyStr :=
  [pstr "PNG", pstr "JPEG", pstr "ICO", pstr "GIF", pstr "BMP", pstr "WEBP", pstr "TIFF"]

/-- The extension dictionary lookup inside `get_extension_for_format`. -/
def extLookup (fmt : PyStr) : Option PyStr :=
  if fmt = pstr "JPEG" then some (pstr ".jpg")
  else if fmt = pstr "PNG" then some (pstr ".png")
  else if fmt = pstr "ICO" then some (pstr ".ico")
  else if fmt = pstr "GIF" then some (pstr ".gif")
  else if fmt = pstr "BMP" then some (pstr ".bmp")
  else if fmt = pstr "WEBP" then some (pstr ".webp")
  else if fmt = pstr "TIFF" then some (pstr ".tiff")
  else none

/-- Embedding of `get_extension_for_format`. -/
def get_extension_for_format (format_name : PyStr) : PyStr :=
  let fmt := normalize_format_name format_name
  (extLookup fmt).getD (pstr "." ++ pyLower fmt)


-- ------------------------
-- Pillow image model
-- ------------------------

/-- The pixel modes the program distinguishes (`img.mode` strings). -/
inductive PMode
  | one | L | LA | P | RGB | RGBA | CMYK | I | F
deriving DecidableEq

/-- The mode string of a pixel mode (`img.mode`). -/
def modeStr : PMode → PyStr
  | .one => pstr "1"
  | .L => pstr "L"
  | .LA => pstr "LA"
  | .P => pstr "P"
  | .RGB => pstr "RGB"
  | .RGBA => pstr "RGBA"
  | .CMYK => pstr "CMYK"
  | .I => pstr "I"
  | .F => pstr "F"

/-- One pixel, stored as the palette-resolved RGBA colour. -/
structure Pix where
  r : Nat
  g : Nat
  b : Nat
  a : Nat
deriving DecidableEq

/-- One frame of an animated source: its mode, its resolved pixel buffer and
the per-frame duration the container declares for it (if any). -/
structure FrameData where
  mode : PMode
  pix : List Pix
  duration : Option Nat
deriving DecidableEq

/-- A decoded Pillow image: pixel mode, the resolved pixel buffer of the
current (first) frame, the container format (`img.format`, absent for raw
pixel buffers), the info entries the program reads (`transparency`,
`duration`, `loop`), the `is_animated` flag and the full frame sequence that
`ImageSequence.Iterator` enumerates. -/
structure PILImage where
  mode : PMode
  pix : List Pix
  format : Option PyStr
  infoTransparency : Bool
  infoDuration : Option Nat
  infoLoop : Option Nat
  isAnimated : Bool
  frames : List FrameData
deriving DecidableEq

/-- Whether the mode string is one of "RGBA", "LA" (the alpha test of the
JPEG branch, `img.mode in ("RGBA", "LA")`). -/
def pilModeHasAlpha (m : PMode) : Bool := m = PMode.RGBA || m = PMode.LA

/-- Whether the image carries usable transparency: an alpha mode, or a
palette mode whose info declares a transparency entry. -/
def imgCarriesAlpha (img : PILImage) : Bool :=
  pilModeHasAlpha img.mode || (img.mode = PMode.P && img.infoTransparency)

/-- Model of `img.convert(m)` for the conversions the program performs:
converting to RGB drops the alpha channel (colours kept, alpha forced
opaque); converting to RGBA keeps the resolved alpha when the source
carries one and is fully opaque otherwise.  Colours are already stored
palette-resolved, so conversion never changes them. -/
def pilConvert (img : PILImage) (m : PMode) : PILImage :=
  { img with
    mode := m
    pix :=
      match m with
      | .RGB => img.pix.map (fun p => { p with a := 255 })
      | .RGBA => if imgCarriesAlpha img then img.pix else img.pix.map (fun p => { p with a := 255 })
      | _ => img.pix }

/-- Model of `frame.convert("RGBA")` in the animation loop: frames store
palette-resolved RGBA pixels already, so the conversion retags the mode. -/
def frameConvertRGBA (f : FrameData) : FrameData := { f with mode := PMode.RGBA }

/-- One channel of a Pillow alpha paste: foreground weighted by alpha,
background by its complement. -/
def blendChan (fg bg a : Nat) : Nat := (fg * a + bg * (255 - a)) / 255

/-- Alpha-paste of a source pixel onto the background colour
(`bg.paste(img, mask=alpha)`): blend each channel, result fully opaque. -/
def pastePix (bgc : Nat × Nat × Nat) (p : Pix) : Pix :=
  { r := blendChan p.r bgc.1 p.a
    g := blendChan p.g bgc.2.1 p.a
    b := blendChan p.b bgc.2.2 p.a
    a := 255 }

/-- Embedding of the JPEG transparency handling of `convert_image_to_bytes`
(lines 118-132 of the source): alpha modes composite onto a fresh
background canvas with the alpha channel as mask; palette images with a
transparency entry are pasted whole onto the canvas without a mask (their
palette colours cover the background); anything else is a plain
`img.convert("RGB")`. -/
def jpegFlatten (img : PILImage) (bg : Nat × Nat × Nat) : PILImage :=
  if pilModeHasAlpha img.mode then
    { img with mode := PMode.RGB, pix := img.pix.map (pastePix bg) }
  else if img.mode = PMode.P ∧ img.infoTransparency = true then
    { img with mode := PMode.RGB, pix := img.pix.map (fun p => { p with a := 255 }) }
  else pilConvert img PMode.RGB

-- ------------------------
-- Conversion orchestrator (`convert_image_to_bytes`)
-- ------------------------

/-- The keyword arguments the program passes to `save` (only `sizes`). -/
structure SaveKw where
  sizes : Option (List (Nat × Nat))
deriving DecidableEq

/-- A call into the external Pillow encoder: either a plain
`img.save(buffer, format, **kwargs)` or the animated GIF save
`frames[0].save(..., save_all=True, append_images, loop, duration,
disposal)`. -/
inductive SaveCall
  | static (img : PILImage) (format : PyStr) (kw : SaveKw)
  | animated (first : FrameData) (rest : List FrameData) (loop duration disposal : Nat)
deriving DecidableEq

/-- The encoded bytes, modelled structurally as what the encoder was asked
to write.  For an animated save, Pillow applies a scalar `duration`
uniformly, so every frame of the written container carries that duration:
`durations` records the per-frame durations a decoder would read back. -/
inductive OutBytes
  | static (img : PILImage) (format : PyStr) (kw : SaveKw)
  | animated (frames : List FrameData) (loop : Nat) (durations : List Nat) (disposal : Nat)
deriving DecidableEq

/-- The `img_to_save` binding of `convert_image_to_bytes`: JPEG targets are
flattened against the background colour, every other target keeps the
decoded image. -/
def img_to_save_of (img : PILImage) (target : PyStr) (bg : Nat × Nat × Nat) : PILImage :=
  if target = pstr "JPEG" then jpegFlatten img bg else img

/-- The `save_kwargs` binding: ICO targets receive the `sizes` keyword when
the size list is truthy (non-empty). -/
def save_kwargs_of (target : PyStr) (ico_sizes : List (Nat × Nat)) : SaveKw :=
  if target = pstr "ICO" ∧ ico_sizes ≠ [] then ⟨some ico_sizes⟩ else ⟨none⟩

/-- The format used by the universal fallback retry:
`target if target != "ICO" else "PNG"`. -/
def retryFormat (target : PyStr) : PyStr :=
  if target = pstr "ICO" then pstr "PNG" else target

/-- The derived output filename: basename of the original without its
extension, plus the extension for the (already normalized) target. -/
def out_filename_of (target original_filename : PyStr) : PyStr :=
  pySplitextRoot (pyBasename original_filename) ++ get_extension_for_format target

/-- The seek state of the mutable image once the frame loop has run:
`ImageSequence.Iterator` seeks the underlying image through its frames, so
after iteration the image is positioned at its last frame, and the
attributes read from it afterwards (mode, pixel buffer) are the last
frame's.  An image with no frames is left untouched. -/
def seekLast (img : PILImage) : PILImage :=
  match img.frames.getLast? with
  | some f => { img with mode := f.mode, pix := f.pix }
  | none => img

/-- The `except` branch of the GIF animation attempt: save the given image
(at whatever seek position it has reached) converted to RGBA as a static
GIF; an encoder failure here escapes `convert_image_to_bytes` as an
exception. -/
def gifFallback (encErr : SaveCall → Option PyStr) (img_to_save : PILImage)
    (out_filename : PyStr) : Except PyStr (OutBytes × PyStr) :=
  let temp := pilConvert img_to_save PMode.RGBA
  match encErr (SaveCall.static temp (pstr "GIF") ⟨none⟩) with
  | none => .ok (.static temp (pstr "GIF") ⟨none⟩, out_filename)
  | some e => .error e

/-- Embedding of `convert_image_to_bytes`.  `encErr` is the external
encoder oracle: `none` means the save call succeeds, `some msg` means
Pillow raises with message `msg`.  The GIF-animation branch re-encodes all
frames with the single container-level duration and `disposal=2`; when the
animated save raises (also when `frames[0]` raises an index error on an
empty sequence), it falls back to a static GIF of the image at its current
seek position — the last frame, since the frame loop has already iterated
the image to its end; every other target saves directly and on failure
retries once with the image converted to RGBA, as PNG when the target was
ICO. -/
def convert_image_to_bytes (encErr : SaveCall → Option PyStr) (img : PILImage)
    (target_format original_filename : PyStr) (jpeg_bg_rgb : Nat × Nat × Nat)
    (ico_sizes : List (Nat × Nat)) (preserve_animation : Bool) :
    Except PyStr (OutBytes × PyStr) :=
  let target := normalize_format_name target_format
  let img_to_save := img_to_save_of img target jpeg_bg_rgb
  let save_kwargs := save_kwargs_of target ico_sizes
  let out_filename := out_filename_of target original_filename
  if target = pstr "GIF" ∧ img.isAnimated = true ∧ preserve_animation = true then
    let duration := img.infoDuration.getD 100
    let loop := img.infoLoop.getD 0
    match img.frames.map frameConvertRGBA with
    | [] => gifFallback encErr (seekLast img_to_save) out_filename
    | f0 :: rest =>
      match encErr (SaveCall.animated f0 rest loop duration 2) with
      | none =>
        .ok (.animated (f0 :: rest) loop (List.replicate (rest.length + 1) duration) 2,
             out_filename)
      | some _ => gifFallback encErr (seekLast img_to_save) out_filename
  else
    match encErr (SaveCall.static img_to_save target save_kwargs) with
    | none => .ok (.static img_to_save target save_kwargs, out_filename)
    | some _ =>
      let temp := pilConvert img_to_save PMode.RGBA
      match encErr (SaveCall.static temp (retryFormat target) save_kwargs) with
      | none => .ok (.static temp (retryFormat target) save_kwargs, out_filename)
      | some e => .error e

-- ------------------------
-- Format detection (`image_format_from_pil`)
-- ------------------------

/-- The filename-extension tier of `image_format_from_pil`: for a truthy
filename hint, `os.path.splitext(hint)[1].lstrip(".").upper()` when that is
itself truthy. -/
def extHint (filename_hint : PyStr) : Option PyStr :=
  if filename_hint = [] then none
  else
    let ext := pyUpper ((pySplitextExt filename_hint).dropWhile (fun c => c == 46))
    if ext = [] then none else some ext

/-- The shared fallback tail of `image_format_from_pil`: filename extension
when available, else the uppercased mode string. -/
def formatFallback (img : PILImage) (filename_hint : PyStr) : PyStr :=
  match extHint filename_hint with
  | some e => e
  | none => pyUpper (modeStr img.mode)

/-- Embedding of `image_format_from_pil`: the uppercased container format
when truthy, else the filename-extension tier, else the mode string. -/
def image_format_from_pil (img : PILImage) (filename_hint : PyStr) : PyStr :=
  match img.format with
  | some f => if f = [] then formatFallback img filename_hint else pyUpper f
  | none => formatFallback img filename_hint

-- ------------------------
-- ICO size parsing (`parse_custom_sizes` and its use in `main`)
-- ------------------------

/-- Decimal digit-string value, `none` when empty or containing a
non-digit. -/
def digitsVal (l : PyStr) : Option Nat :=
  if l ≠ [] ∧ l.all (fun c => decide (48 ≤ c ∧ c ≤ 57)) then
    some (l.foldl (fun a c => a * 10 + (c - 48)) 0)
  else none

/-- Model of the Python `int` constructor on a string: strip whitespace,
optional sign, decimal digits; `none` models a raised `ValueError`.
(Underscore digit grouping is not modelled; no claim depends on it.) -/
def pyInt (s : PyStr) : Option Int :=
  match pyStrip s with
  | [] => none
  | c :: rest =>
    if c = 43 then (digitsVal rest).map Int.ofNat
    else if c = 45 then (digitsVal rest).map (fun n => -(Int.ofNat n))
    else (digitsVal (c :: rest)).map Int.ofNat

/-- The token list of `parse_custom_sizes`:
`[p.strip() for p in text.split(",") if p.strip()]`. -/
def sizeParts (text : PyStr) : List PyStr :=
  ((pySplit 44 text).map pyStrip).filter (fun p => !p.isEmpty)

/-- What one token contributes when every token parses: the square pair for
a positive value, nothing otherwise. -/
def keepPos (p : PyStr) : Option (Nat × Nat) :=
  match pyInt p with
  | some v => if 0 < v then some (v.toNat, v.toNat) else none
  | none => none

/-- The accumulation loop of `parse_custom_sizes`: sequential `int(p)` with
the whole loop inside one `try`, so the first unparsable token aborts with
`none` and discards everything already accumulated. -/
def sizesLoop : List PyStr → List (Nat × Nat) → Option (List (Nat × Nat))
  | [], acc => some acc
  | p :: rest, acc =>
    match pyInt p with
    | none => none
    | some v => sizesLoop rest (if 0 < v then acc ++ [(v.toNat, v.toNat)] else acc)

/-- Embedding of `parse_custom_sizes`: the `except` branch returns `[]`. -/
def parse_custom_sizes (text : PyStr) : List (Nat × Nat) :=
  (sizesLoop (sizeParts text) []).getD []

/-- The built-in default substituted in `main` when custom parsing yields
nothing usable. -/
def defaultCustomIcoSizes : List (Nat × Nat) := [(256, 256), (128, 128), (64, 64)]

/-- The `Custom` branch of the ICO size resolution in `main`:
`parsed if parsed else [(256,256),(128,128),(64,64)]`. -/
def resolve_custom_ico_sizes (text : PyStr) : List (Nat × Nat) :=
  let parsed := parse_custom_sizes text
  if parsed ≠ [] then parsed else defaultCustomIcoSizes


-- ------------------------
-- Batch driver (the conversion loop of `main`)
-- ------------------------

/-- What decoding one uploaded file does: a decoded image, the
`UnidentifiedImageError` that the inner `try` catches, or any other
exception (e.g. a truncated stream failing in `img.load()`) that only the
outer per-file `try` catches. -/
inductive DecodeResult
  | ok (img : PILImage)
  | unidentified
  | otherError (msg : PyStr)
deriving DecidableEq

/-- One uploaded file: its name and what `read_image_from_upload` does on
its bytes. -/
structure UploadedFile where
  name : PyStr
  decoded : DecodeResult
deriving DecidableEq

/-- The option state `main` reads when converting a batch. -/
structure BatchOptions where
  haveFmt : PyStr
  wantFmt : PyStr
  forceConvert : Bool
  preserveAnimation : Bool
  jpegRgb : Nat × Nat × Nat
  icoSizes : List (Nat × Nat)
deriving DecidableEq

/-- The per-file outcome: an entry of `converted_files`, `skipped_files` or
`errors`. -/
inductive Outcome
  | converted (outBytes : OutBytes) (outName : PyStr) (detectedNorm : PyStr)
  | skipped (name reason : PyStr)
  | errored (name msg : PyStr)
deriving DecidableEq

/-- Embedding of one iteration of the conversion loop of `main` (lines
275-303): decode, validate the declared format against the detected one,
convert; the outer `try` resolves any exception into an error record. -/
def processFile (encErr : SaveCall → Option PyStr) (o : BatchOptions)
    (up : UploadedFile) : Outcome :=
  match up.decoded with
  | .unidentified => .skipped up.name (pstr "Unidentified image")
  | .otherError m => .errored up.name m
  | .ok img =>
    let detectedNorm := normalize_format_name (image_format_from_pil img up.name)
    if normalize_format_name o.haveFmt ≠ detectedNorm ∧ o.forceConvert = false then
      .skipped up.name (pstr "Format mismatch (detected: " ++ detectedNorm ++ pstr ")")
    else
      match convert_image_to_bytes encErr img o.wantFmt up.name o.jpegRgb o.icoSizes
          o.preserveAnimation with
      | .ok (b, fn) => .converted b fn detectedNorm
      | .error e => .errored up.name e

/-- The three accumulator lists of the batch loop. -/
structure BatchResult where
  converted : List (OutBytes × PyStr × PyStr)
  skipped : List (PyStr × PyStr)
  errors : List (PyStr × PyStr)
deriving DecidableEq

/-- One loop step: append the outcome of the file to the matching list. -/
def batchStep (encErr : SaveCall → Option PyStr) (o : BatchOptions)
    (acc : BatchResult) (up : UploadedFile) : BatchResult :=
  match processFile encErr o up with
  | .converted b fn d => { acc with converted := acc.converted ++ [(b, fn, d)] }
  | .skipped n r => { acc with skipped := acc.skipped ++ [(n, r)] }
  | .errored n m => { acc with errors := acc.errors ++ [(n, m)] }

/-- Embedding of the whole batch loop of `main`. -/
def runBatch (encErr : SaveCall → Option PyStr) (o : BatchOptions)
    (files : List UploadedFile) : BatchResult :=
  files.foldl (batchStep encErr o) ⟨[], [], []⟩

/-- Projection of an outcome onto the converted list. -/
def outConv : Outcome → Option (OutBytes × PyStr × PyStr)
  | .converted b fn d => some (b, fn, d)
  | _ => none

/-- Projection of an outcome onto the skipped list. -/
def outSkip : Outcome → Option (PyStr × PyStr)
  | .skipped n r => some (n, r)
  | _ => none

/-- Projection of an outcome onto the error list. -/
def outErr : Outcome → Option (PyStr × PyStr)
  | .errored n m => some (n, m)
  | _ => none

-- ------------------------
-- Concrete inputs used by counterexamples and witnesses
-- ------------------------

/-- Decidable equality for `Except`, so concrete conversion results can be
checked by `decide`. -/
instance {ε α : Type} [DecidableEq ε] [DecidableEq α] : DecidableEq (Except ε α) := fun a b =>
  match a, b with
  | .ok x, .ok y =>
    if h : x = y then isTrue (h ▸ rfl) else isFalse (fun he => h (Except.ok.inj he))
  | .error x, .error y =>
    if h : x = y then isTrue (h ▸ rfl) else isFalse (fun he => h (Except.error.inj he))
  | .ok _, .error _ => isFalse (fun he => Except.noConfusion he)
  | .error _, .ok _ => isFalse (fun he => Except.noConfusion he)

/-- First frame of the three-frame demo animation (duration 100). -/
def demoF0 : FrameData := ⟨PMode.P, [⟨1, 2, 3, 255⟩], some 100⟩

/-- Second frame of the demo animation (duration 150). -/
def demoF1 : FrameData := ⟨PMode.P, [⟨4, 5, 6, 255⟩], some 150⟩

/-- Third frame of the demo animation (duration 200). -/
def demoF2 : FrameData := ⟨PMode.P, [⟨7, 8, 9, 255⟩], some 200⟩

/-- A three-frame animated GIF source with per-frame durations
[100, 150, 200] and loop 0; the top-level info duration is that of the
current (first) frame, as Pillow exposes it right after `open`. -/
def demoAnim : PILImage :=
  { mode := PMode.P
    pix := [⟨1, 2, 3, 255⟩]
    format := some (pstr "GIF")
    infoTransparency := false
    infoDuration := some 100
    infoLoop := some 0
    isAnimated := true
    frames := [demoF0, demoF1, demoF2] }

/-- An encoder oracle that always succeeds. -/
def encAlwaysOk : SaveCall → Option PyStr := fun _ => none

/-- An encoder oracle on which every animated save raises and every static
save succeeds. -/
def encAnimFails : SaveCall → Option PyStr := fun c =>
  match c with
  | .animated _ _ _ _ _ => some (pstr "encoder error")
  | .static _ _ _ => none

/-- The upload carrying the demo animation. -/
def demoAnimUpload : UploadedFile := ⟨pstr "a.gif", .ok demoAnim⟩

/-- Batch options used with the demo animation: declared and target format
GIF, no forcing, animation preservation on. -/
def demoGifOptions : BatchOptions :=
  { haveFmt := pstr "GIF"
    wantFmt := pstr "GIF"
    forceConvert := false
    preserveAnimation := true
    jpegRgb := (255, 255, 255)
    icoSizes := [(16, 16)] }



/-- The RGB colour channels of a pixel (for pixel-identity statements). -/
def pixRGB (p : Pix) : Nat × Nat × Nat := (p.r, p.g, p.b)

/-- An encoder oracle on which static ICO saves raise and everything else
succeeds. -/
def encIcoFails : SaveCall → Option PyStr := fun c =>
  match c with
  | .static _ f _ => if f = pstr "ICO" then some (pstr "ico unsupported") else none
  | .animated _ _ _ _ _ => none

/-- A plain single-frame RGB image decoded from a PNG container. -/
def demoRGB : PILImage :=
  { mode := PMode.RGB
    pix := [⟨10, 20, 30, 255⟩]
    format := some (pstr "PNG")
    infoTransparency := false
    infoDuration := none
    infoLoop := none
    isAnimated := false
    frames := [] }

/-- An already-opaque grayscale image (no alpha, no palette transparency). -/
def demoOpaque : PILImage :=
  { mode := PMode.L
    pix := [⟨7, 7, 7, 255⟩, ⟨9, 9, 9, 255⟩]
    format := some (pstr "PNG")
    infoTransparency := false
    infoDuration := none
    infoLoop := none
    isAnimated := false
    frames := [] }

/-- An image whose container format is JPEG. -/
def demoJpegImg : PILImage :=
  { mode := PMode.RGB
    pix := [⟨1, 1, 1, 255⟩]
    format := some (pstr "JPEG")
    infoTransparency := false
    infoDuration := none
    infoLoop := none
    isAnimated := false
    frames := [] }

/-- An upload named `x.png` whose bytes decode to a JPEG image. -/
def demoMismatchUpload : UploadedFile := ⟨pstr "x.png", .ok demoJpegImg⟩

/-- Options declaring the input as PNG with forcing disabled. -/
def demoMismatchOptions : BatchOptions :=
  { haveFmt := pstr "PNG"
    wantFmt := pstr "PNG"
    forceConvert := false
    preserveAnimation := true
    jpegRgb := (255, 255, 255)
    icoSizes := [(16, 16)] }

-- ------------------------
-- Helper lemmas
-- ------------------------

/-- On ASCII code points, lowering is insensitive to a previous
upper-of-lower round trip.  Not true beyond ASCII: the dotless i uppercases
into the ordinary I, which lowers into the ordinary i. -/
theorem lowerChar_upperChar_lowerChar (c : Nat) (hc : c < 128) :
    lowerChar (upperChar (lowerChar c)) = lowerChar c := by
  unfold lowerChar upperChar
  split_ifs <;> omega

/-- Lowering a code point does not change whether it is whitespace. -/
theorem isPyWs_lowerChar (c : Nat) : isPyWs (lowerChar c) = isPyWs c := by
  unfold isPyWs lowerChar
  split_ifs with h
  · exact decide_eq_decide.mpr (by omega)
  · rfl

/-- Uppering a code point does not change whether it is whitespace. -/
theorem isPyWs_upperChar (c : Nat) : isPyWs (upperChar c) = isPyWs c := by
  unfold isPyWs upperChar
  split_ifs with h1 h2
  · exact decide_eq_decide.mpr (by omega)
  · exact decide_eq_decide.mpr (by omega)
  · rfl

/-- Dropping a prefix twice is dropping it once. -/
theorem dropWhile_self_idem {α : Type} (p : α → Bool) (l : List α) :
    List.dropWhile p (List.dropWhile p l) = List.dropWhile p l := by
  induction l with
  | nil => rfl
  | cons a t ih =>
    by_cases h : p a = true
    · simp [List.dropWhile_cons, h, ih]
    · simp [List.dropWhile_cons, h]

/-- The head surviving `dropWhile` fails the predicate. -/
theorem dropWhile_head_false {α : Type} {p : α → Bool} {l : List α} {a : α} {r : List α}
    (h : List.dropWhile p l = a :: r) : p a = false := by
  induction l with
  | nil => simp at h
  | cons x t ih =>
    rw [List.dropWhile_cons] at h
    cases hx : p x with
    | true => rw [if_pos hx] at h; exact ih h
    | false =>
      rw [if_neg (by simp [hx])] at h
      injection h with h1 _
      subst h1
      exact hx

/-- Stripping commutes with a character map that preserves whitespace-ness. -/
theorem pyStrip_map (f : Nat → Nat) (hf : ∀ c, isPyWs (f c) = isPyWs c) (l : PyStr) :
    pyStrip (l.map f) = (pyStrip l).map f := by
  have hp : (isPyWs ∘ f) = isPyWs := funext hf
  unfold pyStrip
  rw [List.dropWhile_map, hp, ← List.map_reverse, List.dropWhile_map, hp, ← List.map_reverse]

/-- Stripping is idempotent. -/
theorem pyStrip_idem (l : PyStr) : pyStrip (pyStrip l) = pyStrip l := by
  unfold pyStrip
  set A := List.dropWhile isPyWs l with hA
  set B := List.dropWhile isPyWs A.reverse with hB
  have hsplit : A = B.reverse ++ (List.takeWhile isPyWs A.reverse).reverse := by
    calc A = A.reverse.reverse := (List.reverse_reverse A).symm
    _ = (List.takeWhile isPyWs A.reverse ++ B).reverse := by
        rw [hB, List.takeWhile_append_dropWhile]
    _ = B.reverse ++ (List.takeWhile isPyWs A.reverse).reverse := List.reverse_append _ _
  have h1 : List.dropWhile isPyWs B.reverse = B.reverse := by
    cases hc : B.reverse with
    | nil => rfl
    | cons a r =>
      have hfalse : isPyWs a = false := by
        apply dropWhile_head_false (p := isPyWs) (l := l)
        rw [← hA, hsplit, hc]
        rfl
      rw [List.dropWhile_cons, if_neg (by simp [hfalse])]
  rw [h1, List.reverse_reverse, hB, dropWhile_self_idem]

/-- Members of a `dropWhile` are members of the original list. -/
theorem mem_dropWhile {α : Type} {p : α → Bool} {c : α} :
    ∀ {l : List α}, c ∈ List.dropWhile p l → c ∈ l := by
  intro l
  induction l with
  | nil => intro h; simp at h
  | cons a t ih =>
    intro h
    rw [List.dropWhile_cons] at h
    by_cases ha : p a = true
    · rw [if_pos ha] at h
      exact List.mem_cons_of_mem a (ih h)
    · rw [if_neg ha] at h
      exact h

/-- Members of the stripped string are members of the original string. -/
theorem mem_pyStrip {l : PyStr} {c : Nat} (h : c ∈ pyStrip l) : c ∈ l := by
  unfold pyStrip at h
  rw [List.mem_reverse] at h
  have h1 := mem_dropWhile h
  rw [List.mem_reverse] at h1
  exact mem_dropWhile h1

/-- For an ASCII string, upper-casing after lower-casing, then lower-casing
again, is just the first lower-casing. -/
theorem pyLower_pyUpper_pyLower (l : PyStr) (hl : ∀ c ∈ l, c < 128) :
    pyLower (pyUpper (pyLower l)) = pyLower l := by
  induction l with
  | nil => rfl
  | cons c t ih =>
    have hc := hl c (by simp)
    have ht : ∀ d ∈ t, d < 128 := fun d hd => hl d (List.mem_cons_of_mem c hd)
    show lowerChar (upperChar (lowerChar c)) :: pyLower (pyUpper (pyLower t))
        = lowerChar c :: pyLower t
    rw [lowerChar_upperChar_lowerChar c hc, ih ht]

set_option maxHeartbeats 1000000 in
/-- Every alias target of the normalization dictionary is one of the seven
enumerated formats. -/
theorem fmtLookup_mem {n v : PyStr} (h : fmtLookup n = some v) : v ∈ enumeratedFormats := by
  unfold fmtLookup at h
  split_ifs at h <;> first
    | (injection h with hv; subst hv; decide)
    | exact Option.noConfusion h

set_option maxHeartbeats 1000000 in
/-- Every alias target of the normalization dictionary is a fixed point of
normalization. -/
theorem fmtLookup_fixed {n v : PyStr} (h : fmtLookup n = some v) :
    normalize_format_name v = v := by
  unfold fmtLookup at h
  split_ifs at h <;> first
    | (injection h with hv; subst hv; decide)
    | exact Option.noConfusion h

/-- Normalization of a non-empty name is the dictionary value on a hit and
the stripped-lowered-uppered name on a miss. -/
theorem normalize_eq_of_ne {t : PyStr} (ht : t ≠ []) :
    normalize_format_name t =
      match fmtLookup (pyLower (pyStrip t)) with
      | some v => v
      | none => pyUpper (pyLower (pyStrip t)) := by
  unfold normalize_format_name
  rw [if_neg ht]

/-- Claim C10 counterexample: normalization is not idempotent.  Python
uppercases the dotless i U+0131 to the ordinary I, so the out-of-set name
"tıf" normalizes to "TIF", which normalizes again to the alias value
"TIFF". -/
theorem c10_counterexample :
    normalize_format_name (pstr "tıf") = pstr "TIF" ∧
    normalize_format_name (pstr "TIF") = pstr "TIFF" ∧
    normalize_format_name (normalize_format_name (pstr "tıf"))
      ≠ normalize_format_name (pstr "tıf") := by decide

/-- Claim C10 (amended): format-name normalization is idempotent on every
ASCII input string — normalizing an already-normalized ASCII name,
including one outside the enumerated set, returns it unchanged.  (Unicode
case mappings such as dotless i → I break idempotence on non-ASCII
input.) -/
theorem c10_normalize_idempotent (s : PyStr) (hascii : ∀ c ∈ s, c < 128) :
    normalize_format_name (normalize_format_name s) = normalize_format_name s := by
  by_cases hs : s = []
  · subst hs; decide
  · rw [normalize_eq_of_ne hs]
    cases hl : fmtLookup (pyLower (pyStrip s)) with
    | some v => exact fmtLookup_fixed hl
    | none =>
      by_cases hu : pyUpper (pyLower (pyStrip s)) = []
      · rw [hu]; decide
      · have hstrip_low : pyStrip (pyLower (pyStrip s)) = pyLower (pyStrip s) := by
          show pyStrip ((pyStrip s).map lowerChar) = _
          rw [pyStrip_map lowerChar isPyWs_lowerChar, pyStrip_idem]
          rfl
        have hstrip_up : pyStrip (pyUpper (pyLower (pyStrip s))) = pyUpper (pyLower (pyStrip s)) := by
          show pyStrip ((pyLower (pyStrip s)).map upperChar) = _
          rw [pyStrip_map upperChar isPyWs_upperChar, hstrip_low]
          rfl
        have hlow : pyLower (pyUpper (pyLower (pyStrip s))) = pyLower (pyStrip s) :=
          pyLower_pyUpper_pyLower (pyStrip s) (fun c hc => hascii c (mem_pyStrip hc))
        rw [normalize_eq_of_ne hu, hstrip_up, hlow, hl]

/-- Witness for the amended C10 at the ASCII out-of-set name "xYz". -/
theorem c10_normalize_idempotent_witness :
    normalize_format_name (normalize_format_name (pstr "xYz"))
      = normalize_format_name (pstr "xYz") :=
  c10_normalize_idempotent (pstr "xYz") (by decide)

/-- Claim C1 counterexample: on the out-of-set name "xyz" the normalizer
does not fail — it returns the value "XYZ", which is outside the enumerated
format set. -/
theorem c1_counterexample :
    normalize_format_name (pstr "xyz") = pstr "XYZ" ∧
    pstr "XYZ" ∉ enumeratedFormats := by decide

/-- Claim C1 (amended): normalization is total.  A name whose stripped,
lowered form is an alias key maps to the corresponding enumerated value; any
other name (the empty string included) is returned stripped and uppercased
instead of failing. -/
theorem c1_normalize_total (s : PyStr) :
    match fmtLookup (pyLower (pyStrip s)) with
    | some v => normalize_format_name s = v ∧ v ∈ enumeratedFormats
    | none => normalize_format_name s = pyUpper (pyLower (pyStrip s)) := by
  by_cases hs : s = []
  · subst hs
    show normalize_format_name [] = pyUpper (pyLower (pyStrip []))
    decide
  · cases hl : fmtLookup (pyLower (pyStrip s)) with
    | some v =>
      refine ⟨?_, fmtLookup_mem hl⟩
      rw [normalize_eq_of_ne hs, hl]
    | none => rw [normalize_eq_of_ne hs, hl]

/-- Unfolding the batch fold: starting from any accumulator, the loop
appends exactly the projections of the per-file outcomes. -/
theorem runBatch_foldl (encErr : SaveCall → Option PyStr) (o : BatchOptions) :
    ∀ (files : List UploadedFile) (acc : BatchResult),
      files.foldl (batchStep encErr o) acc =
        ⟨acc.converted ++ (files.map (processFile encErr o)).filterMap outConv,
         acc.skipped ++ (files.map (processFile encErr o)).filterMap outSkip,
         acc.errors ++ (files.map (processFile encErr o)).filterMap outErr⟩ := by
  intro files
  induction files with
  | nil => intro acc; simp
  | cons up rest ih =>
    intro acc
    rw [List.foldl_cons, ih]
    cases h : processFile encErr o up with
    | converted b fn d =>
      simp [batchStep, h, outConv, outSkip, outErr, List.filterMap_cons]
    | skipped n r =>
      simp [batchStep, h, outConv, outSkip, outErr, List.filterMap_cons]
    | errored n m =>
      simp [batchStep, h, outConv, outSkip, outErr, List.filterMap_cons]

/-- Each outcome lands in exactly one of the three projections, so the
projected lengths always sum to the number of outcomes. -/
theorem outcome_partition_length :
    ∀ (outs : List Outcome),
      (outs.filterMap outConv).length + (outs.filterMap outSkip).length
        + (outs.filterMap outErr).length = outs.length := by
  intro outs
  induction outs with
  | nil => rfl
  | cons oc rest ih =>
    cases oc <;> simp [outConv, outSkip, outErr, List.filterMap_cons] <;> omega

/-- Claim C2: a batch of N files yields exactly N outcome records; the three
result lists are precisely the per-file outcomes partitioned by kind (so no
overlap and no omission), and each file is processed independently of every
other file in the batch. -/
theorem c2_batch_partition (encErr : SaveCall → Option PyStr) (o : BatchOptions)
    (files : List UploadedFile) :
    runBatch encErr o files =
      ⟨(files.map (processFile encErr o)).filterMap outConv,
       (files.map (processFile encErr o)).filterMap outSkip,
       (files.map (processFile encErr o)).filterMap outErr⟩
    ∧ (runBatch encErr o files).converted.length
        + (runBatch encErr o files).skipped.length
        + (runBatch encErr o files).errors.length = files.length := by
  have h := runBatch_foldl encErr o files ⟨[], [], []⟩
  have hEq : runBatch encErr o files =
      ⟨(files.map (processFile encErr o)).filterMap outConv,
       (files.map (processFile encErr o)).filterMap outSkip,
       (files.map (processFile encErr o)).filterMap outErr⟩ := by
    rw [runBatch, h]
    simp
  refine ⟨hEq, ?_⟩
  rw [hEq]
  show ((files.map (processFile encErr o)).filterMap outConv).length
      + ((files.map (processFile encErr o)).filterMap outSkip).length
      + ((files.map (processFile encErr o)).filterMap outErr).length = files.length
  rw [outcome_partition_length, List.length_map]

/-- When every token parses as an integer, the loop keeps exactly the
positive tokens, in order. -/
theorem sizesLoop_all :
    ∀ (parts : List PyStr) (acc : List (Nat × Nat)),
      (∀ p ∈ parts, (pyInt p).isSome) →
      sizesLoop parts acc = some (acc ++ parts.filterMap keepPos) := by
  intro parts
  induction parts with
  | nil => intro acc _; simp [sizesLoop]
  | cons p rest ih =>
    intro acc hall
    obtain ⟨v, hv⟩ := Option.isSome_iff_exists.mp (hall p (by simp))
    simp only [sizesLoop, hv]
    by_cases hpos : 0 < v
    · rw [if_pos hpos, ih _ (fun q hq => hall q (by simp [hq]))]
      simp [List.filterMap_cons, keepPos, hv, hpos]
    · rw [if_neg hpos, ih _ (fun q hq => hall q (by simp [hq]))]
      simp [List.filterMap_cons, keepPos, hv, hpos]

/-- A single unparsable token makes the whole loop raise, discarding every
token already collected. -/
theorem sizesLoop_abort :
    ∀ (parts : List PyStr) (acc : List (Nat × Nat)),
      (∃ p ∈ parts, pyInt p = none) → sizesLoop parts acc = none := by
  intro parts
  induction parts with
  | nil => intro acc h; simp at h
  | cons p rest ih =>
    intro acc h
    cases hv : pyInt p with
    | none => simp [sizesLoop, hv]
    | some v =>
      simp only [sizesLoop, hv]
      apply ih
      rcases h with ⟨q, hq, hqn⟩
      rcases List.mem_cons.mp hq with rfl | hq2
      · rw [hv] at hqn; exact absurd hqn (by simp)
      · exact ⟨q, hq2, hqn⟩

/-- Claim C3 counterexample: in "16,abc,32" the single non-numeric token
"abc" discards the valid tokens 16 and 32 as well — the parse returns the
empty list, not the kept positive tokens the claim requires. -/
theorem c3_counterexample :
    parse_custom_sizes (pstr "16,abc,32") = [] ∧
    parse_custom_sizes (pstr "16,abc,32") ≠ [(16, 16), (32, 32)] := by decide

/-- Claim C3 (amended): when every comma token parses as an integer, the
non-positive ones are skipped individually and the positive ones kept in
order; one non-numeric token aborts the whole parse to the empty list; and
the built-in default size set is substituted exactly when the parse result
is empty. -/
theorem c3_parse_sizes (text : PyStr) :
    ((∀ p ∈ sizeParts text, (pyInt p).isSome) →
      parse_custom_sizes text = (sizeParts text).filterMap keepPos)
    ∧ ((∃ p ∈ sizeParts text, pyInt p = none) → parse_custom_sizes text = [])
    ∧ resolve_custom_ico_sizes text =
        (if parse_custom_sizes text = [] then defaultCustomIcoSizes
         else parse_custom_sizes text) := by
  refine ⟨?_, ?_, ?_⟩
  · intro h
    unfold parse_custom_sizes
    rw [sizesLoop_all _ _ h]
    simp
  · intro h
    unfold parse_custom_sizes
    rw [sizesLoop_abort _ _ h]
    rfl
  · unfold resolve_custom_ico_sizes
    by_cases h : parse_custom_sizes text = [] <;> simp [h]

/-- Witness for the amended C3 on "16,0,32": 0 is skipped individually, 16
and 32 are kept. -/
theorem c3_parse_sizes_witness :
    parse_custom_sizes (pstr "16,0,32") = [(16, 16), (32, 32)] := by
  have h := (c3_parse_sizes (pstr "16,0,32")).1 (by decide)
  exact h.trans (by decide)

/-- Claim C4 counterexample: the three-frame demo animation declares
per-frame durations [100, 150, 200], but the re-encoded GIF carries the
single top-level duration 100 on every frame — the individual frame
durations are not preserved. -/
theorem c4_counterexample :
    demoAnim.frames.map FrameData.duration = [some 100, some 150, some 200] ∧
    convert_image_to_bytes encAlwaysOk demoAnim (pstr "GIF") (pstr "a.gif")
        (255, 255, 255) [] true
      = .ok (.animated (demoAnim.frames.map frameConvertRGBA) 0 [100, 100, 100] 2,
             pstr "a.gif") ∧
    ([100, 100, 100] : List Nat) ≠ [100, 150, 200] := by decide

/-- Claim C4 (amended): converting an animated source to GIF with
preservation enabled and a working encoder keeps the frame order, the loop
count (default 0) and the alpha-capable RGBA frame mode with disposal
policy 2, but applies the single top-level info duration (default 100)
uniformly to every frame instead of each frame's own duration. -/
theorem c4_gif_uniform_duration (encErr : SaveCall → Option PyStr) (img : PILImage)
    (tf ofn : PyStr) (bg : Nat × Nat × Nat) (sizes : List (Nat × Nat))
    (f0 : FrameData) (rest : List FrameData)
    (ht : normalize_format_name tf = pstr "GIF")
    (ha : img.isAnimated = true)
    (hf : img.frames = f0 :: rest)
    (_hmulti : 1 < img.frames.length)
    (henc : encErr (SaveCall.animated (frameConvertRGBA f0) (rest.map frameConvertRGBA)
        (img.infoLoop.getD 0) (img.infoDuration.getD 100) 2) = none) :
    convert_image_to_bytes encErr img tf ofn bg sizes true =
      .ok (.animated ((f0 :: rest).map frameConvertRGBA) (img.infoLoop.getD 0)
             (List.replicate (f0 :: rest).length (img.infoDuration.getD 100)) 2,
           out_filename_of (pstr "GIF") ofn) := by
  simp only [convert_image_to_bytes]
  rw [ht, if_pos ⟨rfl, ha, trivial⟩, hf]
  simp only [List.map_cons, henc, List.length_cons, List.length_map]

/-- Witness for the amended C4 at the concrete demo animation. -/
theorem c4_gif_uniform_duration_witness :
    convert_image_to_bytes encAlwaysOk demoAnim (pstr "GIF") (pstr "a.gif")
        (255, 255, 255) [] true
      = .ok (.animated ([demoF0, demoF1, demoF2].map frameConvertRGBA) 0
               [100, 100, 100] 2, pstr "a.gif") := by
  have h := c4_gif_uniform_duration encAlwaysOk demoAnim (pstr "GIF") (pstr "a.gif")
    (255, 255, 255) [] demoF0 [demoF1, demoF2] (by decide) (by decide) rfl
    (by decide) (by decide)
  exact h.trans (by decide)

/-- Claim C5: outside the GIF-animation branch, when direct encoding of the
target fails, the orchestrator retries exactly once with the image converted
to RGBA, in the requested format — except an ICO target, which retries as
PNG — and a failing retry surfaces as the conversion error of the file. -/
theorem c5_fallback_retry (encErr : SaveCall → Option PyStr) (img : PILImage)
    (tf ofn : PyStr) (bg : Nat × Nat × Nat) (sizes : List (Nat × Nat)) (pres : Bool)
    (e₀ : PyStr) (target : PyStr) (its : PILImage) (kw : SaveKw)
    (htarget : target = normalize_format_name tf)
    (hits : its = img_to_save_of img target bg)
    (hkw : kw = save_kwargs_of target sizes)
    (hng : ¬(target = pstr "GIF" ∧ img.isAnimated = true ∧ pres = true))
    (hfail : encErr (SaveCall.static its target kw) = some e₀) :
    (encErr (SaveCall.static (pilConvert its PMode.RGBA) (retryFormat target) kw) = none →
      convert_image_to_bytes encErr img tf ofn bg sizes pres =
        .ok (.static (pilConvert its PMode.RGBA) (retryFormat target) kw,
             out_filename_of target ofn))
    ∧ (∀ e, encErr (SaveCall.static (pilConvert its PMode.RGBA) (retryFormat target) kw)
          = some e →
      convert_image_to_bytes encErr img tf ofn bg sizes pres = .error e) := by
  subst htarget
  subst hits
  subst hkw
  constructor
  · intro hok
    simp only [convert_image_to_bytes]
    rw [if_neg hng, hfail, hok]
  · intro e he
    simp only [convert_image_to_bytes]
    rw [if_neg hng, hfail, he]

/-- Witness for C5 at an ICO target whose direct save raises: the retry
encodes the RGBA-converted image as PNG. -/
theorem c5_fallback_retry_witness :
    convert_image_to_bytes encIcoFails demoRGB (pstr "ICO") (pstr "pic.png")
        (255, 255, 255) [(16, 16)] true
      = .ok (.static (pilConvert demoRGB PMode.RGBA) (pstr "PNG") ⟨some [(16, 16)]⟩,
             pstr "pic.ico") := by
  have h := (c5_fallback_retry encIcoFails demoRGB (pstr "ICO") (pstr "pic.png")
    (255, 255, 255) [(16, 16)] true (pstr "ico unsupported") _ _ _ rfl rfl rfl
    (by decide) (by decide)).1 (by decide)
  exact h.trans (by decide)

/-- Claim C6: for an image with no alpha mode and no palette transparency,
the JPEG pre-save step is exactly the plain conversion to RGB — the result
does not depend on the background colour and the RGB channels of every
pixel are unchanged. -/
theorem c6_opaque_composite_identity (img : PILImage) (bg bg' : Nat × Nat × Nat)
    (halpha : pilModeHasAlpha img.mode = false)
    (hpal : ¬(img.mode = PMode.P ∧ img.infoTransparency = true)) :
    jpegFlatten img bg = pilConvert img PMode.RGB
    ∧ jpegFlatten img bg = jpegFlatten img bg'
    ∧ (jpegFlatten img bg).pix.map pixRGB = img.pix.map pixRGB := by
  have h1 : ∀ b : Nat × Nat × Nat, jpegFlatten img b = pilConvert img PMode.RGB := by
    intro b
    unfold jpegFlatten
    rw [if_neg (by simp [halpha]), if_neg hpal]
  refine ⟨h1 bg, (h1 bg).trans (h1 bg').symm, ?_⟩
  rw [h1 bg]
  show (img.pix.map fun p => { p with a := 255 }).map pixRGB = img.pix.map pixRGB
  rw [List.map_map]
  rfl

/-- Witness for C6: an opaque grayscale image flattens identically against
black and against red. -/
theorem c6_opaque_composite_identity_witness :
    jpegFlatten demoOpaque (0, 0, 0) = pilConvert demoOpaque PMode.RGB
    ∧ jpegFlatten demoOpaque (0, 0, 0) = jpegFlatten demoOpaque (255, 0, 0) := by
  have h := c6_opaque_composite_identity demoOpaque (0, 0, 0) (255, 0, 0)
    (by decide) (by decide)
  exact ⟨h.1, h.2.1⟩

/-- Claim C7 counterexample: the animated encode of the three-frame demo
animation fails, yet the batch records the file as an ordinary success — a
static single-frame GIF appears in the converted list while the skip and
error lists stay empty, so the caller is never told the animation was lost;
moreover the encoded static frame is the last frame (pixels (7,8,9), the
frame loop left the image seeked to its end), not the first frame
(pixels (1,2,3)). -/
theorem c7_counterexample :
    demoAnim.isAnimated = true ∧ demoAnim.frames.length = 3 ∧
    runBatch encAnimFails demoGifOptions [demoAnimUpload]
      = ⟨[(OutBytes.static (pilConvert (seekLast demoAnim) PMode.RGBA) (pstr "GIF") ⟨none⟩,
           pstr "a.gif", pstr "GIF")], [], []⟩ ∧
    (pilConvert (seekLast demoAnim) PMode.RGBA).pix = demoF2.pix ∧
    demoF2.pix ≠ demoF0.pix := by decide

/-- Claim C7 (amended): when frame-by-frame GIF re-encoding fails and the
static fallback save succeeds, the conversion returns an ordinary success
carrying only the frame at the image's final seek position — the last
frame, since the frame loop has iterated the image to its end — converted
to RGBA as a static GIF; no skip or error record informs the caller that
animation was lost. -/
theorem c7_silent_static_fallback (encErr : SaveCall → Option PyStr) (img : PILImage)
    (tf ofn : PyStr) (bg : Nat × Nat × Nat) (sizes : List (Nat × Nat))
    (f0 : FrameData) (rest : List FrameData) (e : PyStr)
    (ht : normalize_format_name tf = pstr "GIF")
    (ha : img.isAnimated = true)
    (hf : img.frames = f0 :: rest)
    (hfail : encErr (SaveCall.animated (frameConvertRGBA f0) (rest.map frameConvertRGBA)
        (img.infoLoop.getD 0) (img.infoDuration.getD 100) 2) = some e)
    (hok : encErr (SaveCall.static (pilConvert (seekLast img) PMode.RGBA) (pstr "GIF") ⟨none⟩)
        = none) :
    convert_image_to_bytes encErr img tf ofn bg sizes true =
      .ok (.static (pilConvert (seekLast img) PMode.RGBA) (pstr "GIF") ⟨none⟩,
           out_filename_of (pstr "GIF") ofn) := by
  have hsave : img_to_save_of img (pstr "GIF") bg = img := by
    unfold img_to_save_of
    rw [if_neg (by decide)]
  simp only [convert_image_to_bytes]
  rw [ht, if_pos ⟨rfl, ha, trivial⟩, hf]
  simp only [List.map_cons, hfail]
  unfold gifFallback
  rw [hsave]
  simp only [hok]

/-- Witness for the amended C7 at the demo animation with an encoder whose
animated saves raise: the static payload is the seeked (last) frame. -/
theorem c7_silent_static_fallback_witness :
    convert_image_to_bytes encAnimFails demoAnim (pstr "GIF") (pstr "a.gif")
        (255, 255, 255) [] true
      = .ok (.static (pilConvert (seekLast demoAnim) PMode.RGBA) (pstr "GIF") ⟨none⟩,
             pstr "a.gif") := by
  have h := c7_silent_static_fallback encAnimFails demoAnim (pstr "GIF") (pstr "a.gif")
    (255, 255, 255) [] demoF0 [demoF1, demoF2] (pstr "encoder error")
    (by decide) (by decide) rfl (by decide) (by decide)
  exact h.trans (by decide)

/-- Claim C8: a decoded file whose normalized detected format differs from
the normalized declared input format is skipped with a reason citing the
detected format when forcing is disabled, and proceeds to conversion when
forcing is enabled. -/
theorem c8_mismatch_skip (encErr : SaveCall → Option PyStr) (o : BatchOptions)
    (up : UploadedFile) (img : PILImage)
    (hdec : up.decoded = .ok img)
    (hmm : normalize_format_name o.haveFmt
        ≠ normalize_format_name (image_format_from_pil img up.name)) :
    (o.forceConvert = false →
      processFile encErr o up = .skipped up.name
        (pstr "Format mismatch (detected: "
          ++ normalize_format_name (image_format_from_pil img up.name) ++ pstr ")"))
    ∧ (o.forceConvert = true →
      processFile encErr o up =
        match convert_image_to_bytes encErr img o.wantFmt up.name o.jpegRgb o.icoSizes
            o.preserveAnimation with
        | .ok (b, fn) =>
          .converted b fn (normalize_format_name (image_format_from_pil img up.name))
        | .error e => .errored up.name e) := by
  constructor
  · intro hforce
    simp only [processFile, hdec]
    rw [if_pos ⟨hmm, hforce⟩]
  · intro hforce
    simp only [processFile, hdec]
    rw [if_neg (by simp [hforce])]

/-- Witness for C8: a JPEG byte stream declared as PNG with forcing off is
skipped citing the detected JPEG format. -/
theorem c8_mismatch_skip_witness :
    processFile encAlwaysOk demoMismatchOptions demoMismatchUpload
      = .skipped (pstr "x.png") (pstr "Format mismatch (detected: JPEG)") := by
  have h := (c8_mismatch_skip encAlwaysOk demoMismatchOptions demoMismatchUpload
    demoJpegImg rfl (by decide)).1 rfl
  exact h.trans (by decide)

/-- Claim C9: format detection is the three-tier fallback — the uppercased
container format when truthy, else the non-empty filename extension, else
the uppercased pixel-mode string. -/
theorem c9_detected_format_fallback (img : PILImage) (hint : PyStr) :
    (∀ f, img.format = some f → f ≠ [] → image_format_from_pil img hint = pyUpper f)
    ∧ ((img.format = none ∨ img.format = some []) →
        ∀ e, extHint hint = some e → image_format_from_pil img hint = e)
    ∧ ((img.format = none ∨ img.format = some []) → extHint hint = none →
        image_format_from_pil img hint = pyUpper (modeStr img.mode)) := by
  refine ⟨?_, ?_, ?_⟩
  · intro f hform hne
    simp only [image_format_from_pil, hform]
    rw [if_neg hne]
  · rintro (hform | hform) e he <;>
      simp only [image_format_from_pil, hform, formatFallback, he, if_pos]
  · rintro (hform | hform) he <;>
      simp only [image_format_from_pil, hform, formatFallback, he, if_pos]

/-- Witness for C9: an image decoded from a JPEG container is detected as
JPEG regardless of its filename. -/
theorem c9_detected_format_fallback_witness :
    image_format_from_pil demoJpegImg (pstr "x.png") = pstr "JPEG" := by
  have h := (c9_detected_format_fallback demoJpegImg (pstr "x.png")).1
    (pstr "JPEG") rfl (by decide)
  exact h.trans (by decide)
